import Mathlib

/-!
Verification development for the codecrafters-sqlite-rust program.

The Rust sources are shallowly embedded below.  Machine integers are
modelled as `Nat`/`Int` with explicit two's-complement reductions where
the Rust code wraps; byte slices are `List Nat`; SQL text is `List Char`
or `String`; fallible Rust code returns explicit outcome inductives with
a dedicated constructor for Rust panics.  Iterative Rust loops are
modelled with an explicit fuel argument that strictly dominates the
number of loop iterations the Rust code can perform on the given input;
fuel exhaustion is mapped to the panic outcome and is unreachable for
every input considered in the theorems.
-/

namespace SqliteRs

/-! ## Tokenizer (src/tokenizer.rs) -/

/-- Token produced by `Tokenizer::get_token` (src/tokenizer.rs, `enum Token`). -/
inductive Token where
  | number (n : Int)
  | string (s : String)
  | text (s : String)
  | punct (c : Char)
deriving DecidableEq, Repr

/-- The single-quote character, written via its code point. -/
def squote : Char := Char.ofNat 39

/-- The double-quote character, written via its code point. -/
def dquote : Char := Char.ofNat 34

/-- The characters the tokenizer treats as whitespace (the Rust code tests
membership in the three-character string of space, newline and tab). -/
def isWsChar (c : Char) : Bool := c = ' ' || c = '\n' || c = '\t'

/-- Length of the scan performed by the string branch of
`Tokenizer::get_token` (src/tokenizer.rs lines 69-87), counted from the
character after the opening delimiter: the Rust loop advances past a
doubled delimiter (consuming two characters), stops just after a lone
closing delimiter, and stops at end of input.  The token text is the
first `scanLen - 1` characters of this suffix and the tokenizer resumes
after `scanLen` characters; when the suffix is empty the Rust slice
expression panics (start index past end index). -/
def scanLen (q : Char) : List Char → Nat
  | [] => 0
  | [_] => 1
  | c :: c2 :: cs =>
    if c = q then
      if c2 = q then 2 + scanLen q cs else 1
    else 1 + scanLen q (c2 :: cs)

/-- Result of one `get_token` call: a token plus the unconsumed suffix,
end of input, or a Rust panic. -/
inductive TokStep where
  | tok (t : Token) (rest : List Char)
  | eof
  | panic
deriving DecidableEq, Repr

/-- Numeric value of a digit string (the Rust code calls
`str::parse::<i64>` on the digit run and unwraps it; the unwrap panics
exactly when the value overflows an `i64`). -/
def digitsVal (ds : List Char) : Nat :=
  ds.foldl (fun acc c => 10 * acc + (c.toNat - 48)) 0

/-- `Tokenizer::get_token` on a suffix whose head is not whitespace
(src/tokenizer.rs lines 36-101).  Branches in source order: digit run,
identifier run, quoted string, otherwise punctuation. -/
def getTokenCore : List Char → TokStep
  | [] => .eof
  | c :: cs =>
    if c.isDigit then
      let n := digitsVal (c :: cs.takeWhile Char.isDigit)
      if n < 2 ^ 63 then .tok (.number (n : Int)) (cs.dropWhile Char.isDigit)
      else .panic
    else if c.isAlpha then
      .tok (.text (String.mk (c :: cs.takeWhile fun ch => ch.isAlphanum || ch = '_')))
        (cs.dropWhile fun ch => ch.isAlphanum || ch = '_')
    else if c = squote || c = dquote then
      let k := scanLen c cs
      if k = 0 then .panic
      else .tok (.string (String.mk (cs.take (k - 1)))) (cs.drop k)
    else .tok (.punct c) cs

/-- `Tokenizer::get_token`.  The whitespace branch of the source skips a
run of the current whitespace character and retries; iterated, this drops
every leading whitespace character, after which one of the other branches
applies. -/
def getToken (cs : List Char) : TokStep :=
  getTokenCore (cs.dropWhile isWsChar)

/-- Outcome of `Tokenizer::tag` (src/tokenizer.rs lines 119-148). -/
inductive TagRes where
  | tagOk (rest : List Char)
  | tagErr
  | tagPanic
deriving DecidableEq, Repr

/-- ASCII lowercasing of one character.  The Rust code uses the Unicode
`str::to_lowercase`, which agrees with this on the ASCII keywords it is
applied to. -/
def charLower (c : Char) : Char :=
  if 'A' ≤ c ∧ c ≤ 'Z' then Char.ofNat (c.toNat + 32) else c

/-- ASCII lowercasing of a string. -/
def strLower (s : String) : String :=
  String.mk (s.data.map charLower)

/-- `Tokenizer::tag`: consume the next token and compare it
case-insensitively (via lowercasing) with the expected word; punctuation
matches a one-character tag exactly. -/
def tagTok (w : String) (cs : List Char) : TagRes :=
  let tg := strLower w
  match getToken cs with
  | .eof => .tagErr
  | .panic => .tagPanic
  | .tok t rest =>
    match t with
    | .text s => if strLower s = tg then .tagOk rest else .tagErr
    | .punct c =>
      match tg.data with
      | [tc] => if c = tc then .tagOk rest else .tagErr
      | _ => .tagErr
    | _ => .tagErr

/-- Result of `Tokenizer::take_while`. -/
inductive TwRes where
  | ok (ts : List Token) (rest : List Char)
  | panic
deriving DecidableEq, Repr

/-- `Tokenizer::take_while` (src/tokenizer.rs lines 19-34): collect
tokens while the predicate holds; stop before the first failing token or
at end of input.  Fuel dominates the token count (every token consumes at
least one character). -/
def takeWhileTok (p : Token → Bool) : Nat → List Char → TwRes
  | 0, _ => .panic
  | fuel + 1, cs =>
    match getToken cs with
    | .eof => .ok [] cs
    | .panic => .panic
    | .tok t rest =>
      if p t then
        match takeWhileTok p fuel rest with
        | .ok ts r => .ok (t :: ts) r
        | .panic => .panic
      else .ok [] cs

/-! ## WHERE-clause parser (src/main.rs lines 727-817, `SqlWhereClause::new`;
the copy in src/sql_handler.rs lines 123-161 has the same control flow) -/

/-- One parsed WHERE conjunct (`SqlWhereColumn`): a column name, the
(only) equality operator, and the literal token on the right-hand side. -/
structure WhereColM where
  column : String
  value : Token
deriving DecidableEq, Repr

/-- Outcome of `SqlWhereClause::new`. -/
inductive WcRes where
  | ok (cs : List WhereColM)
  | err
  | panic
deriving DecidableEq, Repr

/-- The loop of `SqlWhereClause::new` (src/main.rs lines 757-785): while a
token remains, read `column`, `=`, `value`; if any token remains after the
value, fail; otherwise record the conjunct and loop (the next iteration
necessarily sees end of input and stops).  Peek and next are both
`get_token` on the current suffix. -/
def whereLoop : Nat → List Char → List WhereColM → WcRes
  | 0, _, _ => .panic
  | fuel + 1, cs, acc =>
    match getToken cs with
    | .eof => .ok acc
    | .panic => .panic
    | .tok t cs1 =>
      match t with
      | .text col =>
        match getToken cs1 with
        | .tok (.punct c) cs2 =>
          if c = '=' then
            match getToken cs2 with
            | .tok v cs3 =>
              match getToken cs3 with
              | .tok _ _ => .err
              | .panic => .panic
              | .eof => whereLoop fuel cs3 (acc ++ [⟨col, v⟩])
            | .eof => .err
            | .panic => .panic
          else .err
        | .panic => .panic
        | _ => .err
      | _ => .err

/-- `SqlWhereClause::new`: require the `WHERE` keyword, then run the
conjunct loop on the rest of the input. -/
def whereNew (s : List Char) : WcRes :=
  match tagTok "where" s with
  | .tagOk rest => whereLoop (s.length + 2) rest []
  | .tagErr => .err
  | .tagPanic => .panic

/-! ## Varint decoder (src/main.rs lines 255-281, `Varint::from`; the copy
in src/record_handler.rs lines 176-202 is identical) -/

/-- Interpret a `Nat` accumulator as a 64-bit two's-complement signed
integer, as the Rust `i64` arithmetic does. -/
def twosComp64 (n : Nat) : Int :=
  if n % 2 ^ 64 < 2 ^ 63 then ((n % 2 ^ 64 : Nat) : Int)
  else ((n % 2 ^ 64 : Nat) : Int) - 2 ^ 64

/-- The accumulation loop of `Varint::from`: shift the accumulator left by
seven bits, or in the low seven bits of the byte, and stop after the first
byte whose high bit is clear (or at the end of the slice).  Returns the
accumulator and the number of bytes consumed. -/
def varintAcc (r : Nat) : List Nat → Nat × Nat
  | [] => (r, 0)
  | b :: bs =>
    let r2 := (r * 128 + (b &&& 0x7f)) % 2 ^ 64
    if b &&& 0x80 = 0 then (r2, 1)
    else
      let p := varintAcc r2 bs
      (p.1, p.2 + 1)

/-- `Varint::from`: panics on an empty slice, otherwise runs the
accumulation loop and returns the value, the consumed size, and the
remaining bytes. -/
def varintFrom (buf : List Nat) : Option (Int × Nat × List Nat) :=
  match buf with
  | [] => none
  | _ =>
    let p := varintAcc 0 buf
    some (twosComp64 p.1, p.2, buf.drop p.2)

/-! ## Record value decoding (src/main.rs lines 45-138, `RecordFormat` and
`RecordFormat::new`; src/record_handler.rs lines 204-298 is identical) -/

/-- Two's-complement value of a big-endian byte list of the given width. -/
def beSigned (bs : List Nat) : Int :=
  let n : Nat := bs.foldl (fun acc b => acc * 256 + b % 256) 0
  let w := 8 * bs.length
  if n < 2 ^ (w - 1) then (n : Int) else (n : Int) - 2 ^ w

/-- Unsigned value of a big-endian byte list. -/
def beUnsigned (bs : List Nat) : Nat :=
  bs.foldl (fun acc b => acc * 256 + b % 256) 0

/-- Bytes decoded as text.  The Rust code uses `String::from_utf8_lossy`,
which is the identity embedding on the ASCII bytes exercised here. -/
def bytesToString (bs : List Nat) : String :=
  String.mk (bs.map Char.ofNat)

/-- The decoded column values (`enum RecordFormat`).  Serial types 3 and 5
are zero-extended by the source (it prepends zero bytes before the signed
conversion), which the integer24 and integer48 payloads reflect.  The
float64 variant keeps its eight payload bytes; no claim depends on the
numeric reading or display of a float. -/
inductive RecordFormat where
  | null
  | integer8 (v : Int)
  | integer16 (v : Int)
  | integer24 (v : Int)
  | integer32 (v : Int)
  | integer48 (v : Int)
  | integer64 (v : Int)
  | float64 (bs : List Nat)
  | integer0
  | integer1
  | blob (bs : List Nat)
  | string (s : String)
deriving DecidableEq, Repr

/-- Outcome of `RecordFormat::new`: a value plus the remaining payload, a
recoverable `MalformedRecord` error, or a Rust panic (out-of-bounds
slicing when the payload is too short, or a negative blob/text size cast
to `usize`). -/
inductive RfRes where
  | ok (v : RecordFormat) (rest : List Nat)
  | malformed
  | panic
deriving DecidableEq, Repr

/-- `RecordFormat::new` (src/main.rs lines 62-138): dispatch on the serial
type, consume the required payload bytes, and build the typed value.
Serial types 10 and 11 are the only recoverable failures; missing payload
bytes panic exactly as the Rust slice indexing does. -/
def recordFormatNew (payload : List Nat) (value : Int) : RfRes :=
  if value = 0 then .ok .null payload
  else if value = 1 then
    match payload with
    | b :: rest => .ok (.integer8 (beSigned [b])) rest
    | [] => .panic
  else if value = 2 then
    match payload with
    | b0 :: b1 :: rest => .ok (.integer16 (beSigned [b0, b1])) rest
    | _ => .panic
  else if value = 3 then
    match payload with
    | b0 :: b1 :: b2 :: rest => .ok (.integer24 (beSigned [0, b0, b1, b2])) rest
    | _ => .panic
  else if value = 4 then
    match payload with
    | b0 :: b1 :: b2 :: b3 :: rest => .ok (.integer32 (beSigned [b0, b1, b2, b3])) rest
    | _ => .panic
  else if value = 5 then
    match payload with
    | b0 :: b1 :: b2 :: b3 :: b4 :: b5 :: rest =>
      .ok (.integer48 (beSigned [0, 0, b0, b1, b2, b3, b4, b5])) rest
    | _ => .panic
  else if value = 6 then
    match payload with
    | b0 :: b1 :: b2 :: b3 :: b4 :: b5 :: b6 :: b7 :: rest =>
      .ok (.integer64 (beSigned [b0, b1, b2, b3, b4, b5, b6, b7])) rest
    | _ => .panic
  else if value = 7 then
    match payload with
    | b0 :: b1 :: b2 :: b3 :: b4 :: b5 :: b6 :: b7 :: rest =>
      .ok (.float64 [b0, b1, b2, b3, b4, b5, b6, b7]) rest
    | _ => .panic
  else if value = 8 then .ok .integer0 payload
  else if value = 9 then .ok .integer1 payload
  else if value = 10 ∨ value = 11 then .malformed
  else if 12 ≤ value then
    if value % 2 = 0 then
      let size := ((value - 12) / 2).toNat
      if size ≤ payload.length then .ok (.blob (payload.take size)) (payload.drop size)
      else .panic
    else
      let size := ((value - 13) / 2).toNat
      if size ≤ payload.length then .ok (.string (bytesToString (payload.take size))) (payload.drop size)
      else .panic
  else .panic

/-! ## Record payload decoding (src/main.rs lines 456-479,
`BTreePage::read_values`; src/tree_handler.rs lines 81-104 `values` has
the same body) -/

/-- Outcome of decoding a record payload into its column values. -/
inductive ValRes where
  | ok (vs : List RecordFormat)
  | malformed
  | panic
deriving DecidableEq, Repr

/-- The header loop of `read_values`: while the remaining declared header
size is positive, read one serial-type varint and subtract its encoded
size.  Fuel dominates the iteration count (each iteration consumes at
least one payload byte, and an empty payload panics inside
`Varint::from`). -/
def readHeader : Nat → Int → List Nat → Option (List Int × List Nat)
  | 0, _, _ => none
  | fuel + 1, headerSize, payload =>
    if headerSize > 0 then
      match varintFrom payload with
      | none => none
      | some (v, sz, rest) =>
        match readHeader fuel (headerSize - sz) rest with
        | some (vs, body) => some (v :: vs, body)
        | none => none
    else some ([], payload)

/-- The serial-type list of a record payload together with the body bytes
that follow the header region: read the total-header-size varint, then run
the header loop on `header size minus its own varint size`.  `none` is a
Rust panic. -/
def recordHeader (payload : List Nat) : Option (List Int × List Nat) :=
  match varintFrom payload with
  | none => none
  | some (hv, hsz, rest) => readHeader (payload.length + 1) (hv - (hsz : Int)) rest

/-- The body loop of `read_values`: decode one column per header serial
type, threading the remaining payload. -/
def decodeBody : List Int → List Nat → ValRes
  | [], _ => .ok []
  | v :: vs, payload =>
    match recordFormatNew payload v with
    | .ok rf rest =>
      match decodeBody vs rest with
      | .ok rfs => .ok (rf :: rfs)
      | .malformed => .malformed
      | .panic => .panic
    | .malformed => .malformed
    | .panic => .panic

/-- `BTreePage::read_values`: decode the header, then the body.  Note that
the source never checks that the header varints consume exactly the
declared header length; the loop simply stops once the countdown is no
longer positive. -/
def recordValues (payload : List Nat) : ValRes :=
  match recordHeader payload with
  | none => .panic
  | some (serials, body) => decodeBody serials body

/-! ## Rows (src/main.rs lines 189-253, `Record` and `Record::new`) -/

/-- One named column of a row (`struct Rec`). -/
structure RecM where
  name : String
  value : RecordFormat
deriving DecidableEq, Repr

/-- A decoded row (`struct Record`). -/
structure RecordM where
  rowId : Int
  columns : List RecM
deriving DecidableEq, Repr

/-- Outcome of `Record::new`. -/
inductive RNRes where
  | ok (r : RecordM)
  | err
  | panic
deriving DecidableEq, Repr

/-- The column loop of `Record::new` (src/main.rs lines 225-239): for each
value in order, attach the i-th provided column name (an out-of-range
index panics; with no names the empty string), and replace the value of
column 0 by `Integer64(row_id)` when it is NULL. -/
def recordNewLoop (names : Option (List String)) (rid : Int) : Nat → List RecordFormat → Option (List RecM)
  | _, [] => some []
  | i, v :: vs =>
    match (match names with
           | some ns => ns.get? i
           | none => some "") with
    | none => none
    | some nm =>
      let v2 := if i = 0 ∧ v = .null then .integer64 rid else v
      match recordNewLoop names rid (i + 1) vs with
      | some rest => some (⟨nm, v2⟩ :: rest)
      | none => none

/-! ## B-tree pages and cells (src/main.rs lines 14-43 and 283-302) -/

/-- A parsed table B-tree cell (`enum BTreeCell`; only the two table
variants exist in src/main.rs).  Leaf cells carry their decoded values, as
`BTreePage::read_cells` decodes them eagerly; the unread
`first_overflow_page` bookkeeping field is omitted. -/
inductive BTreeCellM where
  | interior (leftChildPage : Nat) (rowId : Int)
  | leaf (payloadSize : Int) (rowId : Int) (values : List RecordFormat)
deriving DecidableEq, Repr

/-- The two table page types of src/main.rs (`enum BTreePageType`). -/
inductive BTreePageTypeM where
  | interiorTable
  | leafTable
deriving DecidableEq, Repr

/-- A parsed B-tree page (`struct BTreePage`), restricted to the fields
the traversal reads: the page type, the right-most child pointer parsed
from an interior header (and never read again by the iterator), and the
decoded cells.  The freeblock, cell-count and fragment bookkeeping fields
are omitted. -/
structure BTreePageM where
  pageType : BTreePageTypeM
  rightMostPointer : Nat
  cells : List BTreeCellM
deriving DecidableEq, Repr

/-- `Record::new` (src/main.rs lines 215-245): only a leaf-table cell is
accepted; its values become the row's columns via `recordNewLoop` and its
row id becomes the row's id. -/
def recordNew (cell : BTreeCellM) (names : Option (List String)) : RNRes :=
  match cell with
  | .leaf _ rid vals =>
    match recordNewLoop names rid 0 vals with
    | some cols => .ok ⟨rid, cols⟩
    | none => .panic
  | .interior _ _ => .err

/-! ## Value-against-token comparison (src/main.rs lines 141-168, the
`PartialEq<Token>` implementation for `RecordFormat`) -/

/-- Equality between a decoded value and a literal token: numbers compare
against every plain integer variant, the identifier `NULL` matches the
NULL value, a quoted string matches a text value, and everything else is
unequal. -/
def recEqToken (rf : RecordFormat) (t : Token) : Bool :=
  match t with
  | .number n =>
    match rf with
    | .integer8 v => n = v
    | .integer16 v => n = v
    | .integer24 v => n = v
    | .integer32 v => n = v
    | .integer48 v => n = v
    | .integer64 v => n = v
    | _ => false
  | .text s =>
    match rf with
    | .null => s = "NULL"
    | _ => false
  | .string s =>
    match rf with
    | .string v => s = v
    | _ => false
  | .punct _ => false

/-- `SqlWhereColumn::matches` (src/main.rs lines 741-747): find the row
column with the conjunct's name and compare its value with the literal;
the source unwraps the find, so a missing column is a panic (`none`). -/
def wcColMatches (wc : WhereColM) (r : RecordM) : Option Bool :=
  match r.columns.find? (fun c => c.name == wc.column) with
  | some c => some (recEqToken c.value wc.value)
  | none => none

/-- `SqlWhereClause::matches` (src/main.rs lines 803-811): every conjunct
must match; the first failing conjunct stops the scan. -/
def wcMatches : List WhereColM → RecordM → Option Bool
  | [], _ => some true
  | wc :: wcs, r =>
    match wcColMatches wc r with
    | none => none
    | some false => some false
    | some true => wcMatches wcs r

/-! ## The record iterator (src/main.rs lines 304-405, `struct Records`,
`Records::new` and `impl Iterator for Records`) -/

/-- The iterator state (`struct Records`): the interior-cell cursor, the
current record cursor, the optional WHERE filter, the exhaustion flag and
the optional column names.  An exhausted cursor is an empty list. -/
structure RecordsM where
  cellIter : Option (List BTreeCellM)
  recordIter : Option (List BTreeCellM)
  whereClause : Option (List WhereColM)
  flag : Bool
  columnNames : Option (List String)
deriving DecidableEq, Repr

/-- `Records::new` (src/main.rs lines 313-335): a leaf root feeds the
record cursor, an interior root feeds the cell cursor; the right-most
child pointer of the page is not recorded anywhere in the state. -/
def recordsNew (page : BTreePageM) : RecordsM :=
  match page.pageType with
  | .leafTable => ⟨none, some page.cells, none, false, none⟩
  | .interiorTable => ⟨some page.cells, none, none, false, none⟩

/-- Result of draining the iterator: the yielded rows in order, a Rust
panic, or fuel exhaustion (unreachable for the inputs considered, since
every loop iteration of the source consumes a cell from one of the two
cursors). -/
inductive RunRes where
  | finished (rs : List RecordM)
  | panicked
  | fuelOut
deriving DecidableEq, Repr

/-- Prepend a yielded row to a run result. -/
def runCons (r : RecordM) : RunRes → RunRes
  | .finished rs => .finished (r :: rs)
  | x => x

/-- The rows obtained by repeatedly invoking `Records::next`
(src/main.rs lines 360-405), one recursive step per iteration of the
source's loop: a flagged iterator yields nothing; a record-cursor entry is
converted by `Record::new` (whose error is unwrapped, hence a panic),
filtered by the WHERE clause if any, and yielded; otherwise an
interior-cell entry loads its left child page (an unreadable or malformed
page is an unwrapped error, hence a panic) and its cells become the new
record cursor — a non-interior cell there is the source's explicit panic;
when both cursors are exhausted the flag is set and the iterator ends.
The page right-most child pointer is never consulted. -/
def recordsRun (db : Nat → Option BTreePageM) : Nat → RecordsM → RunRes
  | 0, _ => .fuelOut
  | fuel + 1, s =>
    if s.flag then .finished []
    else
      match s.recordIter with
      | some (cell :: rest) =>
        match recordNew cell s.columnNames with
        | .ok rec =>
          let s2 := { s with recordIter := some rest }
          match s.whereClause with
          | some wcs =>
            match wcMatches wcs rec with
            | none => .panicked
            | some true => runCons rec (recordsRun db fuel s2)
            | some false => recordsRun db fuel s2
          | none => runCons rec (recordsRun db fuel s2)
        | _ => .panicked
      | _ =>
        match s.cellIter with
        | some (cell :: rest) =>
          match cell with
          | .interior child _ =>
            match db child with
            | some pg =>
              recordsRun db fuel { s with cellIter := some rest, recordIter := some pg.cells }
            | none => .panicked
          | .leaf _ _ _ => .panicked
        | _ => .finished []

/-! ## Schema records (src/main.rs lines 524-634 and 875-923) -/

/-- A row of `sqlite_schema` (`struct SchemaRecord`). -/
structure SchemaRecord where
  type : String
  name : String
  tblName : String
  rootpage : Nat
  sql : String
deriving DecidableEq, Repr

/-- The rootpage match of `From<Record> for SchemaRecord` (src/main.rs
lines 568-575): the accepted integer variants, with Integer32 falling to
the catch-all panic arm together with every non-integer variant. -/
def rootpageVal : RecordFormat → Option Int
  | .integer8 v => some v
  | .integer16 v => some v
  | .integer24 v => some v
  | .integer48 v => some v
  | .integer64 v => some v
  | _ => none

/-- `From<Record> for SchemaRecord` (src/main.rs lines 549-590): the first
three and the fifth column must be strings, the fourth must satisfy the
rootpage match; any other shape hits a panic arm (`none`).  The i64
rootpage is cast to u32 with two's-complement truncation. -/
def schemaRecordOfRecord (r : RecordM) : Option SchemaRecord :=
  match r.columns.map RecM.value with
  | .string t :: .string n :: .string tb :: rp :: .string sq :: _ =>
    match rootpageVal rp with
    | some i => some ⟨t, n, tb, (i.emod (2 ^ 32)).toNat, sq⟩
    | none => none
  | _ => none

/-- `Schema::tables` (src/main.rs lines 895-897): an iterator over every
stored schema record — the source applies no filter on the `type`
column. -/
def schemaTables (rs : List SchemaRecord) : List SchemaRecord := rs

/-- `PageReader::new` (src/main.rs lines 932-941): the page size is the
big-endian 16-bit integer at bytes 16 and 17 of the 100-byte file
header. -/
def pageSizeOf (header : List Nat) : Nat :=
  256 * (header.getD 16 0 % 256) + header.getD 17 0 % 256

/-- The two lines printed by the `.dbinfo` command (src/main.rs lines
831-834): the page size, and the count of `Schema::tables`. -/
def dbinfoLines (pageSize : Nat) (rs : List SchemaRecord) : List String :=
  ["database page size: " ++ toString pageSize,
   "number of tables: " ++ toString (schemaTables rs).length]

/-! ## Row display (src/main.rs lines 170-187 `Display for RecordFormat`,
and lines 851-868, the row-printing loop of `main`) -/

/-- Rendering of a float column.  The Rust code formats the `f64` with its
standard display; the exact digit string is outside the scope of every
claim, so the model renders the raw payload bytes recognizably. -/
def floatShown (bs : List Nat) : String :=
  "float64:" ++ String.intercalate "," (bs.map toString)

/-- `Display for RecordFormat`: NULL renders as `NULL`, integers in
decimal, the synthetic zero/one constants as `0`/`1`, a blob as the debug
byte array (brackets, comma-space separated), text verbatim. -/
def display : RecordFormat → String
  | .null => "NULL"
  | .integer8 v => toString v
  | .integer16 v => toString v
  | .integer24 v => toString v
  | .integer32 v => toString v
  | .integer48 v => toString v
  | .integer64 v => toString v
  | .float64 bs => floatShown bs
  | .integer0 => "0"
  | .integer1 => "1"
  | .blob bs => "[" ++ String.intercalate ", " (bs.map toString) ++ "]"
  | .string s => s

/-- The accumulation of the row-printing loop in `main`: each selected
value is written followed by one `|`. -/
def rowConcat : List String → String
  | [] => ""
  | v :: vs => v ++ "|" ++ rowConcat vs

/-- `str::trim_end_matches` with pattern `|`: remove every trailing pipe
character. -/
def trimEndPipes (s : String) : String :=
  String.mk ((s.data.reverse.dropWhile fun c => c = '|').reverse)

/-- The line printed for one result row (src/main.rs lines 851-867): the
rendered selected values each followed by `|`, with all trailing pipes
then trimmed. -/
def rowLine (vals : List RecordFormat) : String :=
  trimEndPipes (rowConcat (vals.map display))

/-! ## Column-name recovery from CREATE TABLE statements
(src/main.rs lines 592-634, `SchemaRecord::column_names`, the version the
binary compiles; src/record_handler.rs lines 58-104,
`SchemaRecord::table_column_names`, a variant not referenced by any
module declaration of main.rs) -/

/-- Outcome of column-name recovery. -/
inductive CnRes where
  | ok (ns : List String)
  | err
  | panic
deriving DecidableEq, Repr

/-- The take-while predicate of the column loop: stop at a comma or a
closing parenthesis. -/
def notSepTok (t : Token) : Bool :=
  !(t == .punct ',') && !(t == .punct ')')

/-- The column loop of `SchemaRecord::column_names` (src/main.rs lines
617-632): collect the tokens of one column specification, take the first
(indexing an empty collection panics), require it to be an unquoted
identifier (anything else is a recoverable bail), record it, then consume
one token and stop when it is the closing parenthesis. -/
def columnLoop : Nat → List Char → List String → CnRes
  | 0, _, _ => .panic
  | fuel + 1, cs, acc =>
    match takeWhileTok notSepTok (cs.length + 1) cs with
    | .panic => .panic
    | .ok [] _ => .panic
    | .ok (t :: _) rest =>
      match t with
      | .text s =>
        match getToken rest with
        | .panic => .panic
        | .tok (.punct c) rest2 =>
          if c = ')' then .ok (acc ++ [s]) else columnLoop fuel rest2 (acc ++ [s])
        | .tok _ rest2 => columnLoop fuel rest2 (acc ++ [s])
        | .eof => columnLoop fuel rest (acc ++ [s])
      | _ => .err

/-- The column loop of `SchemaRecord::table_column_names`
(src/record_handler.rs lines 83-103): identical control flow, except that
an empty token list is a recoverable bail and a quoted first token is
accepted as a column name. -/
def columnLoopRh : Nat → List Char → List String → CnRes
  | 0, _, _ => .panic
  | fuel + 1, cs, acc =>
    match takeWhileTok notSepTok (cs.length + 1) cs with
    | .panic => .panic
    | .ok [] _ => .err
    | .ok (t :: _) rest =>
      match (match t with
             | .text s => some s
             | .string s => some s
             | _ => none) with
      | none => .err
      | some s =>
        match getToken rest with
        | .panic => .panic
        | .tok (.punct c) rest2 =>
          if c = ')' then .ok (acc ++ [s]) else columnLoopRh fuel rest2 (acc ++ [s])
        | .tok _ rest2 => columnLoopRh fuel rest2 (acc ++ [s])
        | .eof => columnLoopRh fuel rest (acc ++ [s])

/-- The shared preamble of both recoveries: `CREATE`, `TABLE`, the table
name (quoted or unquoted, compared against the record's name), and the
opening parenthesis; the given loop then collects the column names. -/
def columnNamesWith (loop : Nat → List Char → List String → CnRes) (sr : SchemaRecord) : CnRes :=
  match tagTok "CREATE" sr.sql.data with
  | .tagPanic => .panic
  | .tagErr => .err
  | .tagOk s1 =>
    match tagTok "TABLE" s1 with
    | .tagPanic => .panic
    | .tagErr => .err
    | .tagOk s2 =>
      match getToken s2 with
      | .panic => .panic
      | .eof => .err
      | .tok t s3 =>
        match (match t with
               | .text nm => some nm
               | .string nm => some nm
               | _ => none) with
        | none => .err
        | some nm =>
          if nm = sr.name then
            match tagTok "(" s3 with
            | .tagPanic => .panic
            | .tagErr => .err
            | .tagOk s4 => loop (s4.length + 2) s4 []
          else .err

/-- `SchemaRecord::column_names` of src/main.rs. -/
def columnNames (sr : SchemaRecord) : CnRes :=
  columnNamesWith columnLoop sr

/-- `SchemaRecord::table_column_names` of src/record_handler.rs. -/
def tableColumnNamesRh (sr : SchemaRecord) : CnRes :=
  columnNamesWith columnLoopRh sr

/-- The membership test `SqlStatement::validate` applies to every
projected column name (src/main.rs lines 713-717): plain string
containment, hence a case-sensitive comparison. -/
def selectColumnOk (names : List String) (c : String) : Bool :=
  names.contains c

/-! ## Spec-side definitions

The definitions of this section are written from the words of the
specification, not from the source; they exist only to be compared
against the source-derived definitions above. -/

/-- Spec-side: the `|`-join of the rendered values of a row. -/
def pipeJoin : List String → String
  | [] => ""
  | [v] => v
  | v :: vs => v ++ "|" ++ pipeJoin vs

/-- Spec-side: the number of sqlite_schema rows whose type column equals
`table` — the count the `.dbinfo` claim prescribes. -/
def specTableCount (rs : List SchemaRecord) : Nat :=
  (rs.filter fun r => r.type == "table").length

/-- Spec-side: the rootpage serial types the schema-record claim lists as
accepted (serial types 1, 2, 3, 5 and 6). -/
def serialAccepted : RecordFormat → Bool
  | .integer8 _ => true
  | .integer16 _ => true
  | .integer24 _ => true
  | .integer48 _ => true
  | .integer64 _ => true
  | _ => false

/-- Spec-side: the encoded length of a well-formed varint per the claim —
the position of the first clear high bit within the first eight bytes,
plus one, capped at nine. -/
def specVarintLen (buf : List Nat) : Nat :=
  min (((buf.take 8).findIdx fun b => b &&& 0x80 == 0) + 1) 9

/-- The length the decoder actually consumes: the position of the first
byte with a clear high bit plus one, or the whole buffer when every byte
has its high bit set — with no cap at nine. -/
def uncappedVarintLen (buf : List Nat) : Nat :=
  min buf.length ((buf.findIdx fun b => b &&& 0x80 == 0) + 1)

/-- Spec-side: the left child of an interior table cell. -/
def interiorChildOf : BTreeCellM → Option Nat
  | .interior child _ => some child
  | _ => none

/-- Spec-side: the row id of a leaf table cell. -/
def leafRowIdOf : BTreeCellM → Option Int
  | .leaf _ rid _ => some rid
  | _ => none

/-- Spec-side: the row ids of every leaf-table cell beneath the pages of
the worklist, in depth-first order, descending through interior cells and
through the right-most child pointer — the enumeration the table-tree
claim prescribes. -/
def specRowIds (db : Nat → Option BTreePageM) : Nat → List Nat → List Int
  | 0, _ => []
  | _, [] => []
  | fuel + 1, p :: rest =>
    match db p with
    | none => specRowIds db fuel rest
    | some pg =>
      match pg.pageType with
      | .leafTable => pg.cells.filterMap leafRowIdOf ++ specRowIds db fuel rest
      | .interiorTable =>
        specRowIds db fuel (pg.cells.filterMap interiorChildOf ++ [pg.rightMostPointer] ++ rest)

/-! ## Concrete fixtures used by the theorems -/

/-- A leaf page holding the rows with ids 1 and 2. -/
def pageLeafA : BTreePageM :=
  ⟨.leafTable, 0, [.leaf 2 1 [.integer8 10], .leaf 2 2 [.integer8 20]]⟩

/-- A leaf page holding the rows with ids 3 and 4. -/
def pageLeafB : BTreePageM :=
  ⟨.leafTable, 0, [.leaf 2 3 [.integer8 30], .leaf 2 4 [.integer8 40]]⟩

/-- An interior root: one ordinary cell pointing at page 3 (rows 1-2, key
2 the maximum row id of the left subtree) and right-most child page 4
(rows 3-4). -/
def pageRoot : BTreePageM := ⟨.interiorTable, 4, [.interior 3 2]⟩

/-- A two-level table B-tree: root page 2, leaf children 3 and 4. -/
def dbOne : Nat → Option BTreePageM := fun p =>
  if p = 2 then some pageRoot
  else if p = 3 then some pageLeafA
  else if p = 4 then some pageLeafB
  else none

/-- An interior root whose ordinary cell points at the interior page 2. -/
def pageRootDeep : BTreePageM := ⟨.interiorTable, 4, [.interior 2 4]⟩

/-- A three-level table B-tree: root page 5 above the tree of `dbOne`. -/
def dbTwo : Nat → Option BTreePageM := fun p =>
  if p = 5 then some pageRootDeep else dbOne p

/-- A schema catalog with one table row and one index row. -/
def exSchemaRecords : List SchemaRecord :=
  [⟨"table", "apples", "apples", 2, "CREATE TABLE apples (id integer, name text)"⟩,
   ⟨"index", "idx_apples_name", "apples", 3, "CREATE INDEX idx_apples_name ON apples (name)"⟩]

/-- A schema record whose CREATE statement uses plain column names. -/
def sqlPlainRec : SchemaRecord :=
  ⟨"table", "t", "t", 2, "CREATE TABLE t (id integer primary key, name text)"⟩

/-- A schema record whose CREATE statement quotes its only column name
with double quotes. -/
def sqlQuotedRec : SchemaRecord :=
  ⟨"table", "t", "t", 2, String.mk ("CREATE TABLE t (".data ++ [dquote, 'a', dquote] ++ " int)".data)⟩

/-- A schema record with a mixed-case column name. -/
def sqlMixedRec : SchemaRecord :=
  ⟨"table", "t", "t", 2, "CREATE TABLE t (Name text)"⟩

end SqliteRs

namespace SqliteRs

/-! ## Theorems for the claims -/

/-- C1: the claim states that the record iterator yields every leaf-table
cell beneath the root in ascending row-id order, descending into the
right-most child when the ordinary cells are exhausted and recursing
through interior children.  The code never touches the right-most child
pointer: on the two-level tree `dbOne` it yields only the rows of the
left child (ids 1 and 2) and ends, although rows 3 and 4 live beneath the
root; and on the three-level tree `dbTwo` a descent into an interior
child panics, because the child's interior cells are fed to `Record::new`
whose error is unwrapped. -/
theorem c1_table_tree_enumeration_bug :
    recordsRun dbOne 32 (recordsNew pageRoot)
        = .finished [⟨1, [⟨"", .integer8 10⟩]⟩, ⟨2, [⟨"", .integer8 20⟩]⟩]
    ∧ specRowIds dbOne 8 [2] = [1, 2, 3, 4]
    ∧ recordsRun dbOne 32 (recordsNew pageRoot)
        ≠ .finished [⟨1, [⟨"", .integer8 10⟩]⟩, ⟨2, [⟨"", .integer8 20⟩]⟩,
                     ⟨3, [⟨"", .integer8 30⟩]⟩, ⟨4, [⟨"", .integer8 40⟩]⟩]
    ∧ recordsRun dbTwo 32 (recordsNew pageRootDeep) = .panicked := by
  decide

/-- C2 counterexample: the claim states that `.dbinfo` counts only the
schema rows of type `table`.  On a catalog with one table row and one
index row the code prints `number of tables: 2`, not the claimed count
1. -/
theorem c2_dbinfo_counts_non_tables :
    dbinfoLines 4096 exSchemaRecords
        = ["database page size: 4096", "number of tables: 2"]
    ∧ specTableCount exSchemaRecords = 1
    ∧ dbinfoLines 4096 exSchemaRecords
        ≠ ["database page size: 4096",
           "number of tables: " ++ toString (specTableCount exSchemaRecords)] := by
  decide

/-- C3 counterexample: the claim states that any number of conjuncts is
accepted; the parser rejects the two-conjunct input `WHERE a = 1 b = 2`
because a token remains after the first conjunct's value. -/
theorem c3_where_two_conjuncts_rejected :
    whereNew ("WHERE a = 1 b = 2".data) = .err
    ∧ whereNew ("WHERE a = 1 b = 2".data)
        ≠ .ok [⟨"a", .number 1⟩, ⟨"b", .number 2⟩] := by
  decide

/-- C4 counterexample: on ten bytes whose first nine all have the high
bit set, a well-formed varint has encoded length 9 (the spec-side length
says so), but the decoder consumes all ten bytes — there is no nine-byte
cap in the loop. -/
theorem c4_varint_exceeds_nine_bytes :
    varintFrom [0x80, 0x80, 0x80, 0x80, 0x80, 0x80, 0x80, 0x80, 0x80, 0x00]
        = some (0, 10, [])
    ∧ specVarintLen [0x80, 0x80, 0x80, 0x80, 0x80, 0x80, 0x80, 0x80, 0x80, 0x00] = 9
    ∧ (10 : Nat) ≠ 9 := by
  decide

/-- C5 counterexample: the claim states that a `MalformedRecord` error is
returned when the header varints do not consume exactly the declared
header length, and when the payload runs short.  On `[2, 128, 0]` the
header declares 2 bytes but its varints consume 3, and decoding
nevertheless succeeds; on `[2, 1]` the payload is one byte short for
serial type 1 and the code panics on slice indexing instead of returning
the error value. -/
theorem c5_record_error_conditions_differ :
    recordValues [2, 128, 0] = .ok [.null]
    ∧ recordValues [2, 128, 0] ≠ .malformed
    ∧ recordValues [2, 1] = .panic
    ∧ recordValues [2, 1] ≠ .malformed := by
  decide

/-- C7 counterexample: the claim states the printed line equals the
pipe-join of the rendered values even when a TEXT value ends in a pipe.
For the single TEXT value `ab|` the code prints `ab`: the final
`trim_end_matches` also eats the pipe that belongs to the value. -/
theorem c7_trailing_pipe_lost :
    rowLine [.string "ab|"] = "ab"
    ∧ pipeJoin (List.map display [.string "ab|"]) = "ab|"
    ∧ rowLine [.string "ab|"] ≠ pipeJoin (List.map display [.string "ab|"]) := by
  decide

/-- C8 counterexample: the claim states a doubled delimiter is collapsed
to one literal delimiter in the token text.  Tokenizing the quoted string
with content `ab''cd` yields the text with both quote characters kept,
not the collapsed text. -/
theorem c8_doubled_delimiter_kept :
    getToken [squote, 'a', 'b', squote, squote, 'c', 'd', squote]
        = .tok (.string (String.mk ['a', 'b', squote, squote, 'c', 'd'])) []
    ∧ String.mk ['a', 'b', squote, squote, 'c', 'd']
        ≠ String.mk ['a', 'b', squote, 'c', 'd'] := by
  decide

/-- C9 counterexample: the claim states quoted identifiers are accepted
as column names.  The compiled recovery (src/main.rs) rejects a
double-quoted column name with a recoverable error instead of recording
it. -/
theorem c9_quoted_column_rejected :
    columnNames sqlQuotedRec = .err
    ∧ columnNames sqlQuotedRec ≠ .ok ["a"] := by
  decide

/-- C9 amended: in the compiled program only an unquoted identifier is
accepted as the first token of a column specification (a quoted one makes
recovery fail), while the unreferenced record_handler variant accepts
both; recovered names are compared case-sensitively with plain string
containment. -/
theorem c9_column_names_amended :
    columnNames sqlPlainRec = .ok ["id", "name"]
    ∧ columnNames sqlQuotedRec = .err
    ∧ tableColumnNamesRh sqlQuotedRec = .ok ["a"]
    ∧ columnNames sqlMixedRec = .ok ["Name"]
    ∧ selectColumnOk ["Name"] "Name" = true
    ∧ selectColumnOk ["Name"] "name" = false := by
  decide

/-- Past column 0, the column loop of `Record::new` with no names copies
every value unchanged. -/
theorem recordNewLoop_none_succ (rid : Int) :
    ∀ (vs : List RecordFormat) (i : Nat),
      recordNewLoop none rid (i + 1) vs = some (vs.map fun w => ⟨"", w⟩) := by
  intro vs
  induction vs with
  | nil => intro i; simp [recordNewLoop]
  | cons w ws ih => intro i; simp [recordNewLoop, ih]

/-- C6: for a leaf-table cell, `Record::new` yields the row whose first
column is replaced by `Integer64(row_id)` exactly when it decodes to
NULL, every other column (and a non-NULL first column) passing through
unchanged, and whose row id is the cell's row id. -/
theorem c6_rowid_alias (ps rid : Int) (vals : List RecordFormat) :
    recordNew (.leaf ps rid vals) none
      = .ok ⟨rid,
          match vals with
          | [] => []
          | v :: vs =>
            (⟨"", if v = .null then .integer64 rid else v⟩ : RecM)
              :: vs.map fun w => ⟨"", w⟩⟩ := by
  cases vals with
  | nil => rfl
  | cons v vs =>
    by_cases hv : v = RecordFormat.null <;>
      simp [recordNew, recordNewLoop, recordNewLoop_none_succ, hv]

/-- A value accepted by the rootpage match is one of the five accepted
integer variants. -/
theorem rootpageVal_accepted (rp : RecordFormat) (i : Int) (h : rootpageVal rp = some i) :
    serialAccepted rp = true := by
  cases rp <;> simp [rootpageVal, serialAccepted] at h ⊢

/-- C10: converting a decoded sqlite_schema row into a `SchemaRecord`
succeeds only when the rootpage column is one of the integer variants of
serial type 1, 2, 3, 5 or 6, and every schema row whose rootpage decoded
to the Integer32 variant (serial type 4) hits the catch-all panic arm
instead of producing a record. -/
theorem c10_rootpage_serial4 :
    (∀ (r : RecordM) (sr : SchemaRecord), schemaRecordOfRecord r = some sr →
        ∃ rp, (r.columns.map RecM.value).get? 3 = some rp ∧ serialAccepted rp = true)
    ∧ (∀ (rid : Int) (a1 a2 a3 a4 a5 t n tb sq : String) (i : Int),
        schemaRecordOfRecord
          ⟨rid, [⟨a1, .string t⟩, ⟨a2, .string n⟩, ⟨a3, .string tb⟩,
                 ⟨a4, .integer32 i⟩, ⟨a5, .string sq⟩]⟩ = none) := by
  constructor
  · intro r sr h
    unfold schemaRecordOfRecord at h
    split at h
    · next t n tb rp sq rest heq =>
      refine ⟨rp, by rw [heq]; rfl, ?_⟩
      split at h
      · next i hi => exact rootpageVal_accepted rp i hi
      · exact absurd h (by simp)
    · exact absurd h (by simp)
  · intro rid a1 a2 a3 a4 a5 t n tb sq i
    simp [schemaRecordOfRecord, rootpageVal]

/-- C10 witness: a concrete schema row with an Integer8 rootpage
satisfies the hypothesis of the conversion theorem. -/
theorem c10_rootpage_serial4_witness :
    ∃ rp,
      ((⟨1, [⟨"", .string "table"⟩, ⟨"", .string "apples"⟩, ⟨"", .string "apples"⟩,
             ⟨"", .integer8 2⟩, ⟨"", .string "CREATE TABLE apples (id integer)"⟩]⟩
          : RecordM).columns.map RecM.value).get? 3 = some rp
      ∧ serialAccepted rp = true :=
  c10_rootpage_serial4.1
    ⟨1, [⟨"", .string "table"⟩, ⟨"", .string "apples"⟩, ⟨"", .string "apples"⟩,
         ⟨"", .integer8 2⟩, ⟨"", .string "CREATE TABLE apples (id integer)"⟩]⟩
    ⟨"table", "apples", "apples", 2, "CREATE TABLE apples (id integer)"⟩ (by decide)

/-- C2 amended: the page-size line is as claimed (big-endian 16-bit
integer at header bytes 16 and 17), but the table count is the number of
all sqlite_schema rows, with no filter on the type column; the two counts
agree exactly when every schema row has type `table`. -/
theorem c2_dbinfo_amended :
    (∀ b16 b17 : Nat, b16 < 256 → b17 < 256 →
        pageSizeOf (List.replicate 16 0 ++ [b16, b17] ++ List.replicate 82 0)
          = 256 * b16 + b17)
    ∧ (∀ rs : List SchemaRecord, (∀ r ∈ rs, r.type = "table") →
        (schemaTables rs).length = specTableCount rs)
    ∧ ∀ (ps : Nat) (rs : List SchemaRecord),
        dbinfoLines ps rs
          = ["database page size: " ++ toString ps,
             "number of tables: " ++ toString rs.length] := by
  refine ⟨?_, ?_, fun ps rs => rfl⟩
  · intro b16 b17 h16 h17
    have e16 : (List.replicate 16 (0 : Nat) ++ [b16, b17] ++ List.replicate 82 0).getD 16 0
        = b16 := by
      rw [List.getD_append _ _ _ _ (by simp),
        List.getD_append_right _ _ _ _ (by simp)]
      simp
    have e17 : (List.replicate 16 (0 : Nat) ++ [b16, b17] ++ List.replicate 82 0).getD 17 0
        = b17 := by
      rw [List.getD_append _ _ _ _ (by simp),
        List.getD_append_right _ _ _ _ (by simp)]
      simp
    unfold pageSizeOf
    rw [e16, e17, Nat.mod_eq_of_lt h16, Nat.mod_eq_of_lt h17]
  · intro rs h
    unfold schemaTables specTableCount
    rw [List.filter_eq_self.mpr fun a ha => beq_iff_eq.mpr (h a ha)]

/-- C2 witness: the header-byte extraction evaluated at the sample page
size 4096. -/
theorem c2_dbinfo_amended_witness :
    pageSizeOf (List.replicate 16 0 ++ [16, 0] ++ List.replicate 82 0) = 256 * 16 + 0 :=
  c2_dbinfo_amended.1 16 0 (by decide) (by decide)


/-- When the next token is end of input, one unfolding of the WHERE loop
returns the accumulator. -/
theorem whereLoop_eof (f : Nat) (cs : List Char) (acc : List WhereColM)
    (hg : getToken cs = .eof) : whereLoop (f + 1) cs acc = .ok acc := by
  rw [whereLoop, hg]

/-- Shape of a successful WHERE loop: the loop body bails whenever a token
remains after the first conjunct, so a success adds at most one conjunct
to the accumulator. -/
theorem whereLoop_ok_shape :
    ∀ (fuel : Nat) (cs : List Char) (acc l : List WhereColM),
      whereLoop fuel cs acc = .ok l → l = acc ∨ ∃ c, l = acc ++ [c] := by
  intro fuel cs acc l h
  match fuel with
  | 0 => simp [whereLoop] at h
  | f + 1 =>
    rw [whereLoop] at h
    repeat' split at h
    all_goals try exact Or.inl (by injection h with h2; exact h2.symm)
    all_goals try simp at h
    all_goals rename_i heq3
    all_goals cases f with
      | zero => simp [whereLoop] at h
      | succ g =>
        rw [whereLoop_eof g _ _ heq3] at h
        exact Or.inr ⟨_, by injection h with h2; exact h2.symm⟩


/-- C3 amended: the WHERE parser accepts zero conjuncts (the bare keyword)
or exactly one `ident = literal` conjunct; every successful parse yields
at most one conjunct, because any token remaining after the first
conjunct is rejected. -/
theorem c3_where_amended :
    (∀ (s : List Char) (l : List WhereColM), whereNew s = .ok l → l.length ≤ 1)
    ∧ whereNew ("WHERE".data) = .ok []
    ∧ whereNew ("WHERE color = ".data ++ [squote] ++ "Yellow".data ++ [squote])
        = .ok [⟨"color", .string "Yellow"⟩] := by
  refine ⟨?_, by decide, by decide⟩
  intro s l h
  unfold whereNew at h
  split at h
  · rcases whereLoop_ok_shape _ _ _ _ h with rfl | ⟨c, rfl⟩ <;> simp
  · simp at h
  · simp at h

/-- C3 witness: the empty conjunct list arises from the bare keyword and
satisfies the bound. -/
theorem c3_where_amended_witness :
    whereNew ("WHERE".data) = .ok [] ∧ ([] : List WhereColM).length ≤ 1 :=
  ⟨by decide, c3_where_amended.1 ("WHERE".data) [] (by decide)⟩

/-- The byte count consumed by the varint accumulation loop is the
position of the first clear high bit plus one, limited only by the end of
the buffer — no nine-byte cap. -/
theorem varintAcc_snd :
    ∀ (buf : List Nat) (r : Nat), (varintAcc r buf).2 = uncappedVarintLen buf := by
  intro buf
  induction buf with
  | nil => intro r; rfl
  | cons b bs ih =>
    intro r
    have hlen : uncappedVarintLen (b :: bs)
        = min (bs.length + 1) ((if (b &&& 0x80 == 0) = true then 0
            else List.findIdx (fun x => x &&& 0x80 == 0) bs + 1) + 1) := by
      simp [uncappedVarintLen, List.findIdx_cons, Bool.cond_eq_ite]
    by_cases hb : b &&& 0x80 = 0
    · have hbt : (b &&& 0x80 == 0) = true := by simpa using hb
      rw [hlen]
      simp only [varintAcc, if_pos hb, hbt, if_true]
      omega
    · have hbf : (b &&& 0x80 == 0) = false := by simpa using hb
      rw [hlen]
      simp only [varintAcc, if_neg hb, hbf, Bool.false_eq_true, if_false]
      have h2 := ih ((r * 128 + (b &&& 0x7f)) % 2 ^ 64)
      rw [h2]
      unfold uncappedVarintLen
      omega

/-- C4 amended: the decoder consumes seven payload bits from every byte
uniformly: the consumed length is the position of the first byte with a
clear high bit plus one, or the whole slice when no such byte exists,
with no cap at nine bytes; a ninth byte contributes only its low seven
bits (a nine-byte buffer ending in 0xff decodes to 127, not the 255 an
eight-bit ninth byte would give). -/
theorem c4_varint_amended :
    (∀ buf : List Nat, buf ≠ [] →
        ∃ v, varintFrom buf
            = some (v, uncappedVarintLen buf, buf.drop (uncappedVarintLen buf)))
    ∧ varintFrom [0x80, 0x80, 0x80, 0x80, 0x80, 0x80, 0x80, 0x80, 0xff]
        = some (127, 9, [])
    ∧ (127 : Int) ≠ 255 := by
  refine ⟨?_, by decide, by decide⟩
  intro buf hb
  match buf with
  | b :: bs =>
    refine ⟨twosComp64 (varintAcc 0 (b :: bs)).1, ?_⟩
    show some (twosComp64 (varintAcc 0 (b :: bs)).1, (varintAcc 0 (b :: bs)).2,
        (b :: bs).drop (varintAcc 0 (b :: bs)).2) = _
    rw [varintAcc_snd]

/-- C4 witness: the consumed-length characterization applied to a
one-byte varint. -/
theorem c4_varint_amended_witness :
    ∃ v, varintFrom [3]
        = some (v, uncappedVarintLen [3], List.drop (uncappedVarintLen [3]) [3]) :=
  c4_varint_amended.1 [3] (by decide)


/-- The only recoverable failure of `RecordFormat::new` is serial type 10
or 11. -/
theorem recordFormatNew_malformed (p : List Nat) (v : Int)
    (h : recordFormatNew p v = .malformed) : v = 10 ∨ v = 11 := by
  unfold recordFormatNew at h
  by_cases h0 : v = 0
  · rw [if_pos h0] at h; simp at h
  rw [if_neg h0] at h
  by_cases h1 : v = 1
  · rw [if_pos h1] at h; split at h <;> simp at h
  rw [if_neg h1] at h
  by_cases h2 : v = 2
  · rw [if_pos h2] at h; split at h <;> simp at h
  rw [if_neg h2] at h
  by_cases h3 : v = 3
  · rw [if_pos h3] at h; split at h <;> simp at h
  rw [if_neg h3] at h
  by_cases h4 : v = 4
  · rw [if_pos h4] at h; split at h <;> simp at h
  rw [if_neg h4] at h
  by_cases h5 : v = 5
  · rw [if_pos h5] at h; split at h <;> simp at h
  rw [if_neg h5] at h
  by_cases h6 : v = 6
  · rw [if_pos h6] at h; split at h <;> simp at h
  rw [if_neg h6] at h
  by_cases h7 : v = 7
  · rw [if_pos h7] at h; split at h <;> simp at h
  rw [if_neg h7] at h
  by_cases h8 : v = 8
  · rw [if_pos h8] at h; simp at h
  rw [if_neg h8] at h
  by_cases h9 : v = 9
  · rw [if_pos h9] at h; simp at h
  rw [if_neg h9] at h
  by_cases hor : v = 10 ∨ v = 11
  · exact hor
  rw [if_neg hor] at h
  by_cases h12 : 12 ≤ v
  · rw [if_pos h12] at h
    split at h <;> (simp only [] at h; split at h <;> simp at h)
  · rw [if_neg h12] at h; simp at h

/-- A malformed body decode exhibits a serial type 10 or 11 in the header
list. -/
theorem decodeBody_malformed :
    ∀ (serials : List Int) (payload : List Nat),
      decodeBody serials payload = .malformed → ∃ v ∈ serials, v = 10 ∨ v = 11 := by
  intro serials
  induction serials with
  | nil => intro payload h; simp [decodeBody] at h
  | cons v vs ih =>
    intro payload h
    rw [decodeBody] at h
    split at h
    · split at h
      · simp at h
      · next heq =>
        obtain ⟨w, hw, hw2⟩ := ih _ heq
        exact ⟨w, List.mem_cons_of_mem _ hw, hw2⟩
      · simp at h
    · next heq => exact ⟨v, List.mem_cons_self _ _, recordFormatNew_malformed _ _ heq⟩
    · simp at h

/-- C5 amended: the decoder returns `MalformedRecord` exactly when a
decoded header serial type is 10 or 11 (as on `[2, 10]`); a header whose
varints do not consume exactly the declared length is accepted silently,
and a payload that runs short causes a Rust panic, not the recoverable
error value. -/
theorem c5_record_amended :
    (∀ p : List Nat, recordValues p = .malformed →
        ∃ serials body, recordHeader p = some (serials, body)
          ∧ ∃ v ∈ serials, v = 10 ∨ v = 11)
    ∧ recordValues [2, 10] = .malformed := by
  refine ⟨?_, by decide⟩
  intro p h
  unfold recordValues at h
  split at h
  · simp at h
  · next serials body heq => exact ⟨serials, body, heq, decodeBody_malformed _ _ h⟩

/-- C5 witness: the malformed outcome on `[2, 10]` exhibits serial type
10 in its decoded header. -/
theorem c5_record_amended_witness :
    ∃ serials body, recordHeader [2, 10] = some (serials, body)
      ∧ ∃ v ∈ serials, v = 10 ∨ v = 11 :=
  c5_record_amended.1 [2, 10] (by decide)


/-- Rebuilding a string from its character data is the identity. -/
theorem mk_data (s : String) : String.mk s.data = s := by cases s; rfl

/-- The character data of the pipe separator string. -/
theorem pipe_data : ("|" : String).data = ['|'] := rfl

/-- The character data of the empty string. -/
theorem empty_data : ("" : String).data = [] := rfl

/-- The row-printing accumulation is the pipe-join of the values followed
by one final pipe. -/
theorem rowConcat_data :
    ∀ l : List String, l ≠ [] →
      (rowConcat l).data = (pipeJoin l).data ++ ['|'] := by
  intro l
  induction l with
  | nil => intro h; exact absurd rfl h
  | cons v vs ih =>
    intro _
    cases vs with
    | nil =>
      have e1 : rowConcat [v] = (v ++ "|") ++ rowConcat [] := rfl
      have e0 : rowConcat [] = "" := rfl
      have e2 : pipeJoin [v] = v := rfl
      rw [e1, e0, e2, String.data_append, String.data_append, pipe_data, empty_data,
        List.append_nil]
    | cons w ws =>
      have hd := ih (by simp)
      have e1 : rowConcat (v :: w :: ws) = (v ++ "|") ++ rowConcat (w :: ws) := rfl
      have e2 : pipeJoin (v :: w :: ws) = (v ++ "|") ++ pipeJoin (w :: ws) := rfl
      rw [e1, String.data_append, hd, e2]
      simp [String.data_append, pipe_data, List.append_assoc]

/-- The pipe-join of a list ending in `v` ends in the character data of
`v`. -/
theorem pipeJoin_concat_data :
    ∀ (l : List String) (v : String), ∃ pre, (pipeJoin (l ++ [v])).data = pre ++ v.data := by
  intro l
  induction l with
  | nil => exact fun v => ⟨[], by simp [pipeJoin]⟩
  | cons a l2 ih =>
    intro v
    obtain ⟨pre, hp⟩ := ih v
    cases l2 with
    | nil =>
      refine ⟨a.data ++ ['|'], ?_⟩
      have e1 : pipeJoin ([a] ++ [v]) = (a ++ "|") ++ pipeJoin [v] := rfl
      have e2 : pipeJoin [v] = v := rfl
      rw [e1, e2, String.data_append, String.data_append, pipe_data, List.append_assoc]
    | cons b l3 =>
      refine ⟨a.data ++ '|' :: pre, ?_⟩
      simp only [List.cons_append] at hp ⊢
      have e1 : pipeJoin (a :: b :: (l3 ++ [v])) = (a ++ "|") ++ pipeJoin (b :: (l3 ++ [v])) := rfl
      rw [e1, String.data_append, hp, String.data_append, pipe_data, List.append_assoc]
      simp

/-- Trimming trailing pipes from a list that appends one pipe to data not
ending in a pipe removes exactly that pipe. -/
theorem trimChars_append_pipe (d : List Char) (hne : d ≠ []) (hl : d.getLast? ≠ some '|') :
    ((d ++ ['|']).reverse.dropWhile fun c => c = '|').reverse = d := by
  obtain ⟨c, t, hrev⟩ : ∃ c t, d.reverse = c :: t := by
    cases hr : d.reverse with
    | nil => exact absurd (by simpa using congrArg List.reverse hr) hne
    | cons c t => exact ⟨c, t, rfl⟩
  have hc : d.getLast? = some c := by rw [List.getLast?_eq_head?_reverse, hrev]; rfl
  have hcne : ¬ (c = '|') := fun he => hl (by rw [hc, he])
  have h2 : (d ++ ['|']).reverse = '|' :: d.reverse := by simp
  rw [h2, List.dropWhile_cons, if_pos (by simp), hrev, List.dropWhile_cons,
    if_neg (by simp [hcne]), ← hrev, List.reverse_reverse]

/-- The printed line equals the pipe-join whenever the last rendered
value is nonempty and does not end in a pipe. -/
theorem trim_rowConcat (l : List String) (v : String) (h1 : v.data ≠ [])
    (h2 : v.data.getLast? ≠ some '|') :
    trimEndPipes (rowConcat (l ++ [v])) = pipeJoin (l ++ [v]) := by
  obtain ⟨pre, hp⟩ := pipeJoin_concat_data l v
  have hne : (pipeJoin (l ++ [v])).data ≠ [] := by
    rw [hp]
    simp [h1]
  have hlast : (pipeJoin (l ++ [v])).data.getLast? = v.data.getLast? := by
    rw [hp, List.getLast?_append]
    obtain ⟨x, hx⟩ := Option.isSome_iff_exists.mp (List.getLast?_isSome.mpr h1)
    rw [hx]
    rfl
  unfold trimEndPipes
  rw [rowConcat_data _ (by simp), trimChars_append_pipe _ hne (by rw [hlast]; exact h2),
    mk_data]


/-- C7 amended: each row prints as every rendered value followed by one
pipe with all trailing pipes then trimmed; this equals the pipe-join of
the rendered values whenever the last rendered value is nonempty and does
not itself end in a pipe (and for the empty row), with NULL, the
synthetic zero and one, TEXT and BLOB rendered as the claim states. -/
theorem c7_row_output_amended :
    (∀ (vals : List RecordFormat) (v : RecordFormat),
        (display v).data ≠ [] → (display v).data.getLast? ≠ some '|' →
        rowLine (vals ++ [v]) = pipeJoin ((vals ++ [v]).map display))
    ∧ rowLine [] = pipeJoin []
    ∧ display .null = "NULL" ∧ display .integer0 = "0" ∧ display .integer1 = "1"
    ∧ (∀ s, display (.string s) = s)
    ∧ display (.blob [1, 2]) = "[1, 2]" := by
  refine ⟨?_, by decide, rfl, rfl, rfl, fun s => rfl, by decide⟩
  intro vals v h1 h2
  unfold rowLine
  simp only [List.map_append, List.map_cons, List.map_nil]
  exact trim_rowConcat _ _ h1 h2

/-- C7 witness: the join equality at a one-column row rendering `0`. -/
theorem c7_row_output_amended_witness :
    rowLine ([] ++ [RecordFormat.integer0])
      = pipeJoin (([] ++ [RecordFormat.integer0]).map display) :=
  c7_row_output_amended.1 [] .integer0 (by decide) (by decide)

/-- On a quoted string whose content does not contain the delimiter and
whose continuation does not start with it, the scan stops right after the
closing delimiter. -/
theorem scanLen_clean :
    ∀ (content : List Char) (q : Char) (rest : List Char), q ∉ content →
      rest.head? ≠ some q → scanLen q (content ++ q :: rest) = content.length + 1 := by
  intro content
  induction content with
  | nil =>
    intro q rest _ hr
    cases rest with
    | nil => rfl
    | cons r rs =>
      have hrq : ¬ (r = q) := fun he => hr (by simp [he])
      simp [scanLen, hrq]
  | cons a as ih =>
    intro q rest hq hr
    have ha : ¬ (a = q) := fun he => hq (by simp [he])
    cases as with
    | nil =>
      have h0 := ih q rest (by simp) hr
      simp only [List.nil_append] at h0
      simp [scanLen, ha, h0]
    | cons b bs =>
      have h0 := ih q rest (fun hm => hq (List.mem_cons_of_mem _ hm)) hr
      simp only [List.cons_append] at h0 ⊢
      simp [scanLen, ha, h0]
      omega

/-- C8 amended: a quoted string without doubled delimiters tokenizes to
exactly its content; a doubled delimiter keeps the string token open but
both delimiter characters are retained verbatim in the token text — the
pair is not collapsed to one. -/
theorem c8_tokenizer_amended :
    (∀ (q : Char) (content rest : List Char), (q = squote ∨ q = dquote) →
        q ∉ content → rest.head? ≠ some q →
        getToken (q :: (content ++ q :: rest)) = .tok (.string (String.mk content)) rest)
    ∧ getToken [squote, 'x', squote, squote, 'y', squote]
        = .tok (.string (String.mk ['x', squote, squote, 'y'])) [] := by
  refine ⟨?_, by decide⟩
  intro q content rest hq hmem hr
  have hsc := scanLen_clean content q rest hmem hr
  have hdw : (q :: (content ++ q :: rest)).dropWhile isWsChar = q :: (content ++ q :: rest) := by
    rw [List.dropWhile_cons, if_neg (by rcases hq with rfl | rfl <;> simp [isWsChar, squote, dquote])]
  have htake : (content ++ q :: rest).take content.length = content := List.take_left content _
  have hdrop : (content ++ q :: rest).drop (content.length + 1) = rest := by
    have : content ++ q :: rest = (content ++ [q]) ++ rest := by simp
    rw [this]
    have hlen : (content ++ [q]).length = content.length + 1 := by simp
    rw [← hlen, List.drop_left]
  unfold getToken
  rw [hdw]
  unfold getTokenCore
  rcases hq with rfl | rfl <;>
    simp only [if_neg, hsc, htake, hdrop] <;>
    · rw [if_neg (by decide), if_neg (by decide), if_pos (by decide),
        if_neg (by omega)]
      rw [Nat.add_sub_cancel, htake]

/-- C8 witness: the clean-content tokenization at a one-character quoted
string. -/
theorem c8_tokenizer_amended_witness :
    getToken (squote :: (['a'] ++ squote :: []))
      = .tok (.string (String.mk ['a'])) [] :=
  c8_tokenizer_amended.1 squote ['a'] [] (Or.inl rfl) (by decide) (by decide)

end SqliteRs
